import Mathlib

/-!
Verification of the loan-risk ETL pipeline (`etl_pipeline.py`).

A pandas `DataFrame` is modelled as a `Dataset`: an ordered list of column
names together with a list of rows, each row a list of scalar `Val`ues
(numeric, text, or null).  Numeric scalars are rationals; the float
`np.exp` used for `default_probability` is treated separately over `ℝ`.
Each pipeline stage (`extract_data`, `validate_data`, `transform_data`,
`load_data_to_sqlite`) is embedded as a function on `Dataset` following the
Python source line by line; network fetches are modelled by explicit
outcome types (`LoanFetch`, `ExchFetch`) covering success, non-200 status,
malformed body and raised exception.
-/

/-- A scalar cell value of a data frame: a number, a string, or a missing
value (pandas `NaN` / `None`). -/
inductive Val where
  | num (q : ℚ)
  | str (s : String)
  | null
deriving DecidableEq

/-- One record: the list of cell values of a row, positionally aligned with
the dataset's column list. -/
abbrev Row := List Val

/-- A data frame: ordered column names plus rows of cells. -/
structure Dataset where
  cols : List String
  rows : List Row
deriving DecidableEq

/-- Rectangularity: every row has exactly one cell per column. -/
def Dataset.wf (d : Dataset) : Prop := ∀ r ∈ d.rows, r.length = d.cols.length

/-- Position of a column name in the column list (length if absent),
mirroring positional access into a row. -/
def Dataset.colIdx (d : Dataset) (c : String) : Nat := d.cols.indexOf c

/-- The cell values of one column, top to bottom (missing position reads as
null). -/
def Dataset.getCol (d : Dataset) (c : String) : List Val :=
  d.rows.map (fun r => r.getD (d.colIdx c) Val.null)

/-- The cell at row `i` of column `c`. -/
def Dataset.getCell (d : Dataset) (i : Nat) (c : String) : Val :=
  (d.getCol c).getD i Val.null

/-- Whether a cell holds a string. -/
def Val.isStr : Val → Bool
  | Val.str _ => true
  | _ => false

/-- pandas dtype inference for `select_dtypes(include=['object'])`: a column
is object-typed exactly when it contains some string value. -/
def Dataset.colIsObject (d : Dataset) (c : String) : Bool :=
  (d.getCol c).any Val.isStr

/-- pandas dtype inference for `select_dtypes(include=[np.number])`: with
cells restricted to number/string/null, a column is numeric exactly when it
holds no string (an all-null column reads as numeric, as after
`read_csv`). -/
def Dataset.colIsNumeric (d : Dataset) (c : String) : Bool :=
  !(d.colIsObject c)

/-- Rewrite every cell of column `c` through `f` (no effect on rows too
short to reach the column, which do not occur in rectangular data). -/
def Dataset.mapCol (d : Dataset) (c : String) (f : Val → Val) : Dataset :=
  ⟨d.cols, d.rows.map (fun r => r.set (d.colIdx c) (f (r.getD (d.colIdx c) Val.null)))⟩

/-- `df[c] = scalar`: broadcast one value over a whole column, appending the
column on the right when it is new. -/
def Dataset.setCol (d : Dataset) (c : String) (v : Val) : Dataset :=
  if c ∈ d.cols then ⟨d.cols, d.rows.map (fun r => r.set (d.colIdx c) v)⟩
  else ⟨d.cols ++ [c], d.rows.map (fun r => r ++ [v])⟩

/-- `df[c] = series`: assign one value per row, appending the column on the
right when it is new. -/
def Dataset.setColVals (d : Dataset) (c : String) (vs : List Val) : Dataset :=
  if c ∈ d.cols then ⟨d.cols, (d.rows.zip vs).map (fun p => p.1.set (d.colIdx c) p.2)⟩
  else ⟨d.cols ++ [c], (d.rows.zip vs).map (fun p => p.1 ++ [p.2])⟩

/-- `df[names]`: keep exactly the listed columns, in the listed order. -/
def Dataset.selectCols (d : Dataset) (names : List String) : Dataset :=
  ⟨names, d.rows.map (fun r => names.map (fun c => r.getD (d.colIdx c) Val.null))⟩

/-- Remove duplicates keeping the first occurrence, as
`DataFrame.drop_duplicates` does. -/
def dedupFirst {α : Type} [DecidableEq α] (l : List α) : List α :=
  match l with
  | [] => []
  | a :: t => a :: (dedupFirst t).filter (fun b => b ≠ a)

/-- `df.drop_duplicates()`: remove rows equal to an earlier row across all
columns. -/
def Dataset.dropDuplicates (d : Dataset) : Dataset :=
  ⟨d.cols, dedupFirst d.rows⟩

/-- Insert into a sorted list of rationals, keeping it sorted. -/
def insertSorted (a : ℚ) : List ℚ → List ℚ
  | [] => [a]
  | b :: l => if a ≤ b then a :: b :: l else b :: insertSorted a l

/-- Ascending insertion sort of rationals (the sort underlying the median). -/
def sortRat (l : List ℚ) : List ℚ := l.foldr insertSorted []

/-- The numeric cells of a column; nulls are skipped, as pandas statistics
skip `NaN`. -/
def nonNulls (l : List Val) : List ℚ :=
  l.filterMap (fun v => match v with | Val.num q => some q | _ => none)

/-- `Series.median`: middle element of the sorted values for odd length,
mean of the two middle elements for even length, undefined (`NaN`) when
empty. -/
def median (l : List ℚ) : Option ℚ :=
  let s := sortRat l
  if l.length = 0 then none
  else if l.length % 2 = 1 then some (s.getD (l.length / 2) 0)
  else some ((s.getD (l.length / 2 - 1) 0 + s.getD (l.length / 2) 0) / 2)

/-- One column of the fill step `df[numeric] = df[numeric].fillna(median)`:
replace nulls of column `c` of `d` by the median of that column as read
from `d0` (the data frame the medians were computed from); a `NaN` median
(all-null column) fills nothing. -/
def imputeCol (d0 : Dataset) (d : Dataset) (c : String) : Dataset :=
  match median (nonNulls (d0.getCol c)) with
  | none => d
  | some m => d.mapCol c (fun v => if v = Val.null then Val.num m else v)

/-- `validate_data`: drop duplicate rows, classify columns by dtype, fill
missing numeric values with each column's median, then keep the numeric
columns followed by the object columns. -/
def validate_data (d : Dataset) : Dataset :=
  let d1 := d.dropDuplicates
  let numeric_cols := d1.cols.filter (fun c => d1.colIsNumeric c)
  let categorical_cols := d1.cols.filter (fun c => d1.colIsObject c)
  let d2 := numeric_cols.foldl (imputeCol d1) d1
  d2.selectCols (numeric_cols ++ categorical_cols)

/-- The constant `DEFAULT_EXCHANGE_RATE = 1.3`. -/
def DEFAULT_EXCHANGE_RATE : ℚ := 13 / 10

/-- Outcome of the `requests.get(exchange_api_url)` call: the call (or a
later statement of the `try` block) raised, or a response arrived with a
status code and, when the body parsed to the expected shape, a currency-rate
mapping. -/
inductive ExchFetch where
  | exc
  | ok (status : Nat) (rates : Option (List (String × ℚ)))

/-- The exchange-rate branch of `extract_data`: on a 200 response read the
CAD rate (defaulting to 1.3 when absent, or when reading the body raises,
which lands in the `except` handler); on a raised call set the default; a
non-200 response skips the body of the `if` and leaves the frame untouched. -/
def applyExchange (f : ExchFetch) (d : Dataset) : Dataset :=
  match f with
  | ExchFetch.exc => d.setCol "exchange_rate" (Val.num DEFAULT_EXCHANGE_RATE)
  | ExchFetch.ok status body =>
    if status = 200 then
      match body with
      | some rates => d.setCol "exchange_rate" (Val.num ((rates.lookup "CAD").getD DEFAULT_EXCHANGE_RATE))
      | none => d.setCol "exchange_rate" (Val.num DEFAULT_EXCHANGE_RATE)
    else d

/-- Outcome of the `requests.get(loan_api_url)` call: raised, or a response
with a status code and parsed records. -/
inductive LoanFetch where
  | exc
  | ok (status : Nat) (records : Dataset)

/-- `pd.concat([d1, d2], ignore_index=True)`: union of the columns (new ones
of `d2` appended after those of `d1`), rows of `d1` then rows of `d2`, with
null in the positions a source lacks. -/
def concatUnion (d1 d2 : Dataset) : Dataset :=
  let cols := d1.cols ++ d2.cols.filter (fun c => ¬ c ∈ d1.cols)
  ⟨cols,
    d1.rows.map (fun r => cols.map (fun c => if c ∈ d1.cols then r.getD (d1.colIdx c) Val.null else Val.null)) ++
    d2.rows.map (fun r => cols.map (fun c => if c ∈ d2.cols then r.getD (d2.colIdx c) Val.null else Val.null))⟩

/-- The loan-registry branch of `extract_data`: append the fetched records
on a 200 response; a non-200 response or a raised call leaves the frame
untouched. -/
def applyLoanApi (f : LoanFetch) (d : Dataset) : Dataset :=
  match f with
  | LoanFetch.exc => d
  | LoanFetch.ok status api => if status = 200 then concatUnion d api else d

/-- `pd.DataFrame()`: the empty frame substituted when reading the CSV
raises. -/
def emptyDataset : Dataset := ⟨[], []⟩

/-- `extract_data`: read the primary file (`none` models a read that raised
and was caught), then apply the loan-registry branch and the exchange-rate
branch when those endpoints are configured. -/
def extract_data (fileRead : Option Dataset) (loanApi : Option LoanFetch)
    (exchApi : Option ExchFetch) : Dataset :=
  let df := fileRead.getD emptyDataset
  let df := match loanApi with | none => df | some f => applyLoanApi f df
  match exchApi with | none => df | some f => applyExchange f df

/-- The dict lookup of `Series.map({'Approved': 1, 'Denied': 0})` on one
cell: values that are not keys of the dict (other strings, numbers, nulls)
map to null (`NaN`). -/
def loanStatusMapVal : Val → Val
  | Val.str s => if s = "Approved" then Val.num 1 else if s = "Denied" then Val.num 0 else Val.null
  | _ => Val.null

/-- The `loan_status` encoding step of `transform_data`: when the column is
present and object-typed, map every cell through the dict. -/
def encodeLoanStatus (d : Dataset) : Dataset :=
  if "loan_status" ∈ d.cols ∧ d.colIsObject "loan_status" = true then
    d.mapCol "loan_status" loanStatusMapVal
  else d

/-- `astype(str)` on a cell: strings unchanged, numbers printed, `NaN`
prints as the string nan. -/
def valToStr : Val → String
  | Val.str s => s
  | Val.num q => toString q
  | Val.null => "nan"

/-- `LabelEncoder().fit_transform(col.astype(str))`: each cell is replaced
by the rank of its string form among the sorted distinct string forms of
the column. -/
def labelEncodeCol (d : Dataset) (c : String) : Dataset :=
  let keys := (dedupFirst ((d.getCol c).map valToStr)).mergeSort (fun a b => decide (a ≤ b))
  d.mapCol c (fun v => Val.num (keys.indexOf (valToStr v) : ℚ))

/-- Elementwise division of two cells; any missing operand gives a missing
result, as `NaN` propagates. -/
def divV : Val → Val → Val
  | Val.num a, Val.num b => Val.num (a / b)
  | _, _ => Val.null

/-- Elementwise subtraction of two cells with `NaN` propagation. -/
def subV : Val → Val → Val
  | Val.num a, Val.num b => Val.num (a - b)
  | _, _ => Val.null

/-- Elementwise multiplication of two cells with `NaN` propagation. -/
def mulV : Val → Val → Val
  | Val.num a, Val.num b => Val.num (a * b)
  | _, _ => Val.null

/-- `pd.cut(credit_score, bins=[300, 600, 750, 850], labels=[Low, Medium,
High])`: `pd.cut` is right-closed by default, so the buckets are the
intervals from 300 exclusive to 600 inclusive, 600 exclusive to 750
inclusive, and 750 exclusive to 850 inclusive; values at or below 300 and
values above 850 fall outside every bin and give `NaN`. -/
def creditScoreCategory (credit_score : ℚ) : Option String :=
  if credit_score ≤ 300 then none
  else if credit_score ≤ 600 then some "Low"
  else if credit_score ≤ 750 then some "Medium"
  else if credit_score ≤ 850 then some "High"
  else none

/-- Lines 106-115 of `transform_data`, applied to the frame `d2` left by the
label encoding: derive `income_usd = income / exchange_rate`, the four
uniform-draw metrics `loan_income_ratio`, `debt_service_ratio`,
`loan_to_value_ratio`, `net_worth`, and stamp the `timestamp` column.  `n`
stands for `len(df)`, which is constant across the block. -/
def transformIncomeBlock (u : Nat → Nat → ℚ) (nowTs : String) (n : Nat) (d2 : Dataset) : Dataset :=
  let d3 := d2.setColVals "income_usd" (List.zipWith divV (d2.getCol "income") (d2.getCol "exchange_rate"))
  let d4 := d3.setColVals "loan_income_ratio" ((List.range n).map (fun i => Val.num (u 0 i)))
  let d5 := d4.setColVals "debt_service_ratio" (List.zipWith divV (d4.getCol "income") ((List.range n).map (fun i => Val.num (u 1 i))))
  let d6 := d5.setColVals "loan_to_value_ratio" ((List.range n).map (fun i => Val.num (u 2 i)))
  let d7 := d6.setColVals "net_worth" (List.zipWith subV (d6.getCol "income") ((List.range n).map (fun i => Val.num (u 3 i))))
  d7.setCol "timestamp" (Val.str nowTs)

/-- Lines 116-122 of `transform_data`: bucket `credit_score` through
`pd.cut` into `credit_score_category`, derive `default_probability` via the
logistic transform, then `expected_loss`, `sharpe_ratio` and
`value_at_risk`. -/
def transformRiskBlock (ex : ℚ → ℚ) (u : Nat → Nat → ℚ) (n : Nat) (d8 : Dataset) : Dataset :=
  let d9 := d8.setColVals "credit_score_category" ((d8.getCol "credit_score").map (fun v => match v with
    | Val.num q => match creditScoreCategory q with
      | some s => Val.str s
      | none => Val.null
    | _ => Val.null))
  let d10 := d9.setColVals "default_probability" ((d9.getCol "credit_score").map (fun v => match v with
    | Val.num q => Val.num (1 / (1 + ex (-(q - 700) / 50)))
    | _ => Val.null))
  let d11 := d10.setColVals "expected_loss" (List.zipWith mulV (d10.getCol "default_probability") ((List.range n).map (fun i => Val.num (u 4 i))))
  let d12 := d11.setColVals "sharpe_ratio" (List.zipWith divV (List.zipWith subV (d11.getCol "income") ((List.range n).map (fun i => Val.num (u 5 i)))) ((List.range n).map (fun i => Val.num (u 6 i))))
  d12.setColVals "value_at_risk" ((List.range n).map (fun i => Val.num (-(165 / 100) * u 7 i)))

/-- `transform_data`: encode `loan_status`, label-encode the remaining
object columns, then run the two derivation blocks.  The unseeded
`np.random.uniform` draws are abstracted as the parameter `u` (call-site
number and row number to drawn value), the wall-clock timestamp string as
`nowTs`, and the float `np.exp` routine as `ex`.  Accessing `income`,
`exchange_rate` or `credit_score` when the column is absent raises a
`KeyError` in the source, modelled as `none`. -/
def transform_data (ex : ℚ → ℚ) (u : Nat → Nat → ℚ) (nowTs : String)
    (d : Dataset) : Option Dataset :=
  let d1 := encodeLoanStatus d
  let cats := d1.cols.filter (fun c => d1.colIsObject c && c ≠ "loan_status")
  let d2 := cats.foldl labelEncodeCol d1
  if "income" ∈ d2.cols ∧ "exchange_rate" ∈ d2.cols then
    let d8 := transformIncomeBlock u nowTs d2.rows.length d2
    if "credit_score" ∈ d8.cols then
      some (transformRiskBlock ex u d2.rows.length d8)
    else none
  else none

/-- The idealized real-number semantics of line 119,
`1 / (1 + np.exp(-(credit_score - 700) / 50))`. -/
noncomputable def default_probability (credit_score : ℝ) : ℝ :=
  1 / (1 + Real.exp (-(credit_score - 700) / 50))

/-- The SQLite store: the contents of the `loans` table when it exists, and
whether the `credit_score` index exists. -/
structure Store where
  loans : Option Dataset
  hasIdx : Bool
deriving DecidableEq

/-- `load_data_to_sqlite`: `to_sql('loans', if_exists='replace')` discards
any previous table and writes the frame's rows, then
`CREATE INDEX IF NOT EXISTS` ensures the `credit_score` index. -/
def load_data_to_sqlite (df : Dataset) (s : Store) : Store :=
  { loans := some df, hasIdx := true }

/-- Number of rows of the `loans` table (0 when the table does not exist). -/
def Store.rowCount (s : Store) : Nat :=
  match s.loans with
  | none => 0
  | some t => t.rows.length

instance (d : Dataset) : Decidable d.wf :=
  inferInstanceAs (Decidable (∀ r ∈ d.rows, r.length = d.cols.length))

/-! ### Helper lemmas about list access -/

lemma getD_set_self {α : Type} (l : List α) (i : Nat) (a x : α) (h : i < l.length) :
    (l.set i a).getD i x = a := by
  rw [List.getD_eq_getElem?_getD, List.getElem?_set_self h, Option.getD_some]

lemma getD_set_ne {α : Type} (l : List α) {i j : Nat} (hij : i ≠ j) (a x : α) :
    (l.set i a).getD j x = l.getD j x := by
  rw [List.getD_eq_getElem?_getD, List.getElem?_set_ne hij, ← List.getD_eq_getElem?_getD]

lemma getD_map_lt {α β : Type} (l : List α) (f : α → β) {i : Nat} (h : i < l.length)
    (x : β) : (l.map f).getD i x = f (l.get ⟨i, h⟩) := by
  rw [List.getD_eq_getElem?_getD, List.getElem?_map]
  rw [List.getElem?_eq_getElem h]
  rfl

lemma colIdx_mk (cols : List String) (rows : List Row) (c : String) :
    (Dataset.mk cols rows).colIdx c = cols.indexOf c := rfl

/-! ### Column index lemmas -/

lemma colIdx_lt (d : Dataset) {c : String} (h : c ∈ d.cols) :
    d.colIdx c < d.cols.length := List.indexOf_lt_length.mpr h

lemma cols_get_colIdx (d : Dataset) {c : String} (h : c ∈ d.cols) :
    d.cols.get ⟨d.colIdx c, colIdx_lt d h⟩ = c := List.getElem_indexOf (colIdx_lt d h)

lemma colIdx_ne_of_ne (d : Dataset) {c c' : String} (hc : c ∈ d.cols) (hc' : c' ∈ d.cols)
    (hne : c ≠ c') : d.colIdx c ≠ d.colIdx c' := by
  intro h
  apply hne
  have hfin : (⟨d.colIdx c, colIdx_lt d hc⟩ : Fin d.cols.length) =
      ⟨d.colIdx c', colIdx_lt d hc'⟩ := Fin.ext h
  rw [← cols_get_colIdx d hc, ← cols_get_colIdx d hc', hfin]

/-! ### mapCol lemmas -/

lemma cols_mapCol (d : Dataset) (c : String) (f : Val → Val) :
    (d.mapCol c f).cols = d.cols := rfl

lemma wf_mapCol (d : Dataset) (c : String) (f : Val → Val) (hwf : d.wf) :
    (d.mapCol c f).wf := by
  intro r hr
  simp only [Dataset.mapCol, List.mem_map] at hr
  obtain ⟨r0, hr0, rfl⟩ := hr
  simp only [List.length_set]
  exact hwf r0 hr0

lemma mapCol_of_not_mem (d : Dataset) {c : String} (f : Val → Val) (hwf : d.wf)
    (hc : c ∉ d.cols) : d.mapCol c f = d := by
  have hidx : d.colIdx c = d.cols.length := List.indexOf_eq_length.mpr hc
  have hrows : d.rows.map (fun r => r.set (d.colIdx c) (f (r.getD (d.colIdx c) Val.null))) = d.rows := by
    conv_rhs => rw [← List.map_id d.rows]
    apply List.map_congr_left
    intro r hr
    have hlen : r.length = d.cols.length := hwf r hr
    simp only [id]
    exact List.set_eq_of_length_le (by omega)
  unfold Dataset.mapCol
  rw [hrows]

lemma getCol_mapCol_self (d : Dataset) {c : String} (f : Val → Val) (hwf : d.wf)
    (hc : c ∈ d.cols) : (d.mapCol c f).getCol c = (d.getCol c).map f := by
  unfold Dataset.getCol Dataset.mapCol
  simp only [List.map_map]
  apply List.map_congr_left
  intro r hr
  have hlen : r.length = d.cols.length := hwf r hr
  have hidx : d.colIdx c < r.length := by rw [hlen]; exact colIdx_lt d hc
  simp only [Function.comp]
  exact getD_set_self r _ _ _ hidx

lemma getCol_mapCol_ne (d : Dataset) {c c' : String} (f : Val → Val) (hwf : d.wf)
    (hc : c ∈ d.cols) (hne : c' ≠ c) : (d.mapCol c f).getCol c' = d.getCol c' := by
  unfold Dataset.getCol Dataset.mapCol
  simp only [List.map_map]
  apply List.map_congr_left
  intro r hr
  simp only [Function.comp]
  by_cases hc' : c' ∈ d.cols
  · exact getD_set_ne r (colIdx_ne_of_ne d hc hc' (fun h => hne h.symm)) _ _
  · have hidx : d.colIdx c' = d.cols.length := List.indexOf_eq_length.mpr hc'
    have hlt : d.colIdx c < d.cols.length := colIdx_lt d hc
    have hne2 : d.colIdx c ≠ d.colIdx c' := by omega
    exact getD_set_ne r hne2 _ _

/-! ### imputeCol lemmas -/

/-- The fill function applied to a column by `fillna` with a possibly-`NaN`
fill value. -/
def fillFn (m : Option ℚ) (vs : List Val) : List Val :=
  match m with
  | none => vs
  | some q => vs.map (fun v => if v = Val.null then Val.num q else v)

lemma cols_imputeCol (d0 d : Dataset) (c : String) : (imputeCol d0 d c).cols = d.cols := by
  unfold imputeCol
  cases median (nonNulls (d0.getCol c)) <;> rfl

lemma wf_imputeCol (d0 d : Dataset) (c : String) (hwf : d.wf) : (imputeCol d0 d c).wf := by
  unfold imputeCol
  cases median (nonNulls (d0.getCol c))
  · exact hwf
  · exact wf_mapCol d c _ hwf

lemma getCol_imputeCol_self (d0 d : Dataset) {c : String} (hwf : d.wf) (hc : c ∈ d.cols) :
    (imputeCol d0 d c).getCol c = fillFn (median (nonNulls (d0.getCol c))) (d.getCol c) := by
  unfold imputeCol fillFn
  cases median (nonNulls (d0.getCol c))
  · rfl
  · exact getCol_mapCol_self d _ hwf hc

lemma getCol_imputeCol_ne (d0 d : Dataset) {c c' : String} (hwf : d.wf) (hc : c ∈ d.cols)
    (hne : c' ≠ c) : (imputeCol d0 d c).getCol c' = d.getCol c' := by
  unfold imputeCol
  cases median (nonNulls (d0.getCol c))
  · rfl
  · exact getCol_mapCol_ne d _ hwf hc hne

lemma cols_foldl_imputeCol (d0 : Dataset) (l : List String) (d : Dataset) :
    (l.foldl (imputeCol d0) d).cols = d.cols := by
  induction l generalizing d with
  | nil => rfl
  | cons x t ih => rw [List.foldl_cons, ih, cols_imputeCol]

lemma wf_foldl_imputeCol (d0 : Dataset) (l : List String) (d : Dataset) (hwf : d.wf) :
    (l.foldl (imputeCol d0) d).wf := by
  induction l generalizing d with
  | nil => exact hwf
  | cons x t ih => exact ih _ (wf_imputeCol d0 d x hwf)

lemma getCol_foldl_imputeCol_not_mem (d0 : Dataset) (l : List String) (d : Dataset)
    (hwf : d.wf) (hsub : ∀ x ∈ l, x ∈ d.cols) {c : String} (hc : c ∉ l) :
    (l.foldl (imputeCol d0) d).getCol c = d.getCol c := by
  induction l generalizing d with
  | nil => rfl
  | cons x t ih =>
    rw [List.foldl_cons]
    have hx : x ∈ d.cols := hsub x (by simp)
    have hne : c ≠ x := fun h => hc (h ▸ List.mem_cons_self x t)
    rw [ih (imputeCol d0 d x) (wf_imputeCol d0 d x hwf)
      (fun y hy => (cols_imputeCol d0 d x) ▸ hsub y (List.mem_cons_of_mem x hy))
      (fun h => hc (List.mem_cons_of_mem x h))]
    exact getCol_imputeCol_ne d0 d hwf hx hne

lemma getCol_foldl_imputeCol_mem (d0 : Dataset) (l : List String) (d : Dataset)
    (hwf : d.wf) (hsub : ∀ x ∈ l, x ∈ d.cols) (hnd : l.Nodup) {c : String} (hc : c ∈ l) :
    (l.foldl (imputeCol d0) d).getCol c =
      fillFn (median (nonNulls (d0.getCol c))) (d.getCol c) := by
  induction l generalizing d with
  | nil => exact absurd hc (List.not_mem_nil c)
  | cons x t ih =>
    rw [List.foldl_cons]
    have hx : x ∈ d.cols := hsub x (by simp)
    rcases List.mem_cons.mp hc with hcx | hct
    · subst hcx
      have hcnott : c ∉ t := (List.nodup_cons.mp hnd).1
      rw [getCol_foldl_imputeCol_not_mem d0 t (imputeCol d0 d c)
        (wf_imputeCol d0 d c hwf)
        (fun y hy => (cols_imputeCol d0 d c) ▸ hsub y (List.mem_cons_of_mem c hy)) hcnott]
      exact getCol_imputeCol_self d0 d hwf hx
    · have hnex : c ≠ x := fun h => (List.nodup_cons.mp hnd).1 (h ▸ hct)
      rw [ih (imputeCol d0 d x) (wf_imputeCol d0 d x hwf)
        (fun y hy => (cols_imputeCol d0 d x) ▸ hsub y (List.mem_cons_of_mem x hy))
        (List.nodup_cons.mp hnd).2 hct]
      rw [getCol_imputeCol_ne d0 d hwf hx hnex]

/-! ### selectCols and dropDuplicates lemmas -/

lemma cols_selectCols (d : Dataset) (names : List String) :
    (d.selectCols names).cols = names := rfl

lemma getCol_selectCols (d : Dataset) {names : List String} {c : String} (hc : c ∈ names) :
    (d.selectCols names).getCol c = d.getCol c := by
  unfold Dataset.selectCols Dataset.getCol
  simp only [colIdx_mk, List.map_map]
  apply List.map_congr_left
  intro r hr
  simp only [Function.comp]
  have hlt : names.indexOf c < names.length := List.indexOf_lt_length.mpr hc
  rw [getD_map_lt names (fun c' => r.getD (d.colIdx c') Val.null) hlt Val.null]
  have hget : names.get ⟨names.indexOf c, hlt⟩ = c := List.getElem_indexOf hlt
  rw [hget]

lemma dedupFirst_eq_self {α : Type} [DecidableEq α] {l : List α} (h : l.Nodup) :
    dedupFirst l = l := by
  induction l with
  | nil => rfl
  | cons a t ih =>
    rw [dedupFirst, ih (List.nodup_cons.mp h).2]
    have ha : a ∉ t := (List.nodup_cons.mp h).1
    rw [List.filter_eq_self.mpr]
    intro b hb
    simp only [ne_eq, decide_eq_true_eq]
    intro hba
    exact ha (hba ▸ hb)

lemma dropDuplicates_eq_self (d : Dataset) (h : d.rows.Nodup) : d.dropDuplicates = d := by
  unfold Dataset.dropDuplicates
  rw [dedupFirst_eq_self h]

/-! ### validate_data and transform_data column-set lemmas -/

lemma cols_dropDuplicates (d : Dataset) : d.dropDuplicates.cols = d.cols := rfl

lemma validate_data_eq (d : Dataset) :
    validate_data d =
      ((d.dropDuplicates.cols.filter (fun c => d.dropDuplicates.colIsNumeric c)).foldl
        (imputeCol d.dropDuplicates) d.dropDuplicates).selectCols
        ((d.dropDuplicates.cols.filter (fun c => d.dropDuplicates.colIsNumeric c)) ++
          (d.dropDuplicates.cols.filter (fun c => d.dropDuplicates.colIsObject c))) := rfl

lemma mem_cols_validate (d : Dataset) {c : String} (hc : c ∈ d.cols) :
    c ∈ (validate_data d).cols := by
  rw [validate_data_eq, cols_selectCols]
  by_cases h : d.dropDuplicates.colIsObject c = true
  · exact List.mem_append_right _ (List.mem_filter.mpr ⟨hc, h⟩)
  · apply List.mem_append_left
    apply List.mem_filter.mpr
    refine ⟨hc, ?_⟩
    unfold Dataset.colIsNumeric
    rw [Bool.eq_false_iff.mpr h]
    rfl

lemma mem_cols_setCol {d : Dataset} {c : String} (c' : String) (v : Val) (h : c ∈ d.cols) :
    c ∈ (d.setCol c' v).cols := by
  unfold Dataset.setCol
  split
  · exact h
  · exact List.mem_append_left _ h

lemma mem_cols_setColVals {d : Dataset} {c : String} (c' : String) (vs : List Val)
    (h : c ∈ d.cols) : c ∈ (d.setColVals c' vs).cols := by
  unfold Dataset.setColVals
  split
  · exact h
  · exact List.mem_append_left _ h

lemma cols_labelEncodeCol (d : Dataset) (c : String) : (labelEncodeCol d c).cols = d.cols := rfl

lemma cols_foldl_labelEncodeCol (l : List String) (d : Dataset) :
    (l.foldl labelEncodeCol d).cols = d.cols := by
  induction l generalizing d with
  | nil => rfl
  | cons x t ih => rw [List.foldl_cons, ih, cols_labelEncodeCol]

lemma encodeLoanStatus_cols (d : Dataset) : (encodeLoanStatus d).cols = d.cols := by
  unfold encodeLoanStatus
  split
  · rfl
  · rfl

lemma mem_cols_transformIncomeBlock (u : Nat → Nat → ℚ) (ts : String) (n : Nat)
    {d : Dataset} {c : String} (hc : c ∈ d.cols) :
    c ∈ (transformIncomeBlock u ts n d).cols := by
  unfold transformIncomeBlock
  apply mem_cols_setCol
  apply mem_cols_setColVals
  apply mem_cols_setColVals
  apply mem_cols_setColVals
  apply mem_cols_setColVals
  apply mem_cols_setColVals
  exact hc

lemma mem_cols_transformRiskBlock (ex : ℚ → ℚ) (u : Nat → Nat → ℚ) (n : Nat)
    {d : Dataset} {c : String} (hc : c ∈ d.cols) :
    c ∈ (transformRiskBlock ex u n d).cols := by
  unfold transformRiskBlock
  apply mem_cols_setColVals
  apply mem_cols_setColVals
  apply mem_cols_setColVals
  apply mem_cols_setColVals
  apply mem_cols_setColVals
  exact hc

lemma mem_cols_transform_getD (ex : ℚ → ℚ) (u : Nat → Nat → ℚ) (ts : String) (d : Dataset)
    {c : String} (hc : c ∈ d.cols) : c ∈ ((transform_data ex u ts d).getD d).cols := by
  simp only [transform_data]
  split
  · split
    · simp only [Option.getD_some]
      apply mem_cols_transformRiskBlock
      apply mem_cols_transformIncomeBlock
      rw [cols_foldl_labelEncodeCol, encodeLoanStatus_cols]
      exact hc
    · simpa using hc
  · simpa using hc

/-! ### Claim theorems -/

/-- C1: if `loan_status` is present at the start of a stage it is still
present in the stage's output: `validate_data`'s column reduction
re-includes it (every column is classified numeric or object and both
groups are kept), and `transform_data` only rewrites or appends columns, so
whenever it produces an output that output still carries `loan_status`. -/
theorem loan_status_never_dropped :
    (∀ d : Dataset, "loan_status" ∈ d.cols → "loan_status" ∈ (validate_data d).cols) ∧
    (∀ (ex : ℚ → ℚ) (u : Nat → Nat → ℚ) (ts : String) (d : Dataset),
      "loan_status" ∈ d.cols → "loan_status" ∈ ((transform_data ex u ts d).getD d).cols) :=
  ⟨fun d h => mem_cols_validate d h,
   fun ex u ts d h => mem_cols_transform_getD ex u ts d h⟩

/-- Concrete one-row frame carrying all the columns `transform_data`
requires. -/
def dW1 : Dataset :=
  ⟨["loan_status", "income", "exchange_rate", "credit_score"],
   [[Val.str "Approved", Val.num 50000, Val.num 1, Val.num 700]]⟩

/-- Witness for C1 at `dW1`. -/
theorem loan_status_never_dropped_witness :
    "loan_status" ∈ (validate_data dW1).cols ∧
    "loan_status" ∈ ((transform_data (fun q => q) (fun _ _ => 0) "2025-01-01" dW1).getD dW1).cols :=
  ⟨loan_status_never_dropped.1 dW1 (by decide),
   loan_status_never_dropped.2 (fun q => q) (fun _ _ => 0) "2025-01-01" dW1 (by decide)⟩

/-- C2 counterexample: the claim asserts left-closed buckets with 600
mapping to Medium and totality at 300; `pd.cut`'s right-closed bins map 600
to Low and leave 300 unbucketed. -/
theorem credit_score_category_cex :
    creditScoreCategory 600 = some "Low" ∧
    creditScoreCategory 600 ≠ some "Medium" ∧
    creditScoreCategory 300 = none := by decide

/-- C2 amended: `credit_score_category` assigns exactly one bucket with
right-closed boundaries — Low on 300 exclusive to 600 inclusive, Medium on
600 exclusive to 750 inclusive, High on 750 exclusive to 850 inclusive —
so the boundary scores 600 and 750 map to the lower bucket and 300 itself
falls outside every bucket. -/
theorem credit_score_category_right_closed (q : ℚ) :
    (creditScoreCategory q = some "Low" ↔ 300 < q ∧ q ≤ 600) ∧
    (creditScoreCategory q = some "Medium" ↔ 600 < q ∧ q ≤ 750) ∧
    (creditScoreCategory q = some "High" ↔ 750 < q ∧ q ≤ 850) ∧
    creditScoreCategory 600 = some "Low" ∧
    creditScoreCategory 750 = some "Medium" ∧
    creditScoreCategory 300 = none := by
  have hLow : creditScoreCategory q = some "Low" ↔ 300 < q ∧ q ≤ 600 := by
    constructor
    · intro h
      unfold creditScoreCategory at h
      split_ifs at h with h1 h2 h3 h4
      · exact ⟨not_le.mp h1, h2⟩
      · exact absurd h (by decide)
      · exact absurd h (by decide)
    · intro h
      unfold creditScoreCategory
      rw [if_neg (not_le.mpr h.1), if_pos h.2]
  have hMedium : creditScoreCategory q = some "Medium" ↔ 600 < q ∧ q ≤ 750 := by
    constructor
    · intro h
      unfold creditScoreCategory at h
      split_ifs at h with h1 h2 h3 h4
      · exact absurd h (by decide)
      · exact ⟨not_le.mp h2, h3⟩
      · exact absurd h (by decide)
    · intro h
      unfold creditScoreCategory
      rw [if_neg (not_le.mpr (by linarith [h.1] : (300 : ℚ) < q)), if_neg (not_le.mpr h.1),
        if_pos h.2]
  have hHigh : creditScoreCategory q = some "High" ↔ 750 < q ∧ q ≤ 850 := by
    constructor
    · intro h
      unfold creditScoreCategory at h
      split_ifs at h with h1 h2 h3 h4
      · exact absurd h (by decide)
      · exact absurd h (by decide)
      · exact ⟨not_le.mp h3, h4⟩
    · intro h
      unfold creditScoreCategory
      rw [if_neg (not_le.mpr (by linarith [h.1] : (300 : ℚ) < q)),
        if_neg (not_le.mpr (by linarith [h.1] : (600 : ℚ) < q)), if_neg (not_le.mpr h.1),
        if_pos h.2]
  exact ⟨hLow, hMedium, hHigh, by decide, by decide, by decide⟩

/-- Concrete one-row frame without an `exchange_rate` column. -/
def dX3 : Dataset := ⟨["income"], [[Val.num 100]]⟩

/-- C3 counterexample: the claim asserts that every non-successful fetch
outcome broadcasts the default 1.3, but a non-200 response leaves the frame
unchanged — no `exchange_rate` column is created at all. -/
theorem exchange_rate_nonsuccess_cex :
    applyExchange (ExchFetch.ok 404 (some [])) dX3 = dX3 ∧
    "exchange_rate" ∉ dX3.cols := by decide

/-- C3 amended: with an exchange endpoint configured, a raised call, a 200
response whose body fails to parse, and a 200 response whose rate mapping
lacks CAD all broadcast the default rate 1.3 as a dataset-wide
`exchange_rate` column, the same way as on success; but a response with a
non-200 status code leaves the dataset unchanged, adding no column. -/
theorem exchange_rate_fallback (d : Dataset) :
    applyExchange ExchFetch.exc d = d.setCol "exchange_rate" (Val.num DEFAULT_EXCHANGE_RATE) ∧
    (∀ (status : Nat) (body : Option (List (String × ℚ))), status ≠ 200 →
      applyExchange (ExchFetch.ok status body) d = d) ∧
    (∀ rates : List (String × ℚ), applyExchange (ExchFetch.ok 200 (some rates)) d =
      d.setCol "exchange_rate" (Val.num ((rates.lookup "CAD").getD DEFAULT_EXCHANGE_RATE))) ∧
    applyExchange (ExchFetch.ok 200 none) d = d.setCol "exchange_rate" (Val.num DEFAULT_EXCHANGE_RATE) := by
  refine ⟨rfl, ?_, fun rates => rfl, rfl⟩
  intro status body h
  simp only [applyExchange]
  rw [if_neg h]

/-- Witness for C3 (amended) at `dX3`, status 500. -/
theorem exchange_rate_fallback_witness :
    applyExchange ExchFetch.exc dX3 = dX3.setCol "exchange_rate" (Val.num DEFAULT_EXCHANGE_RATE) ∧
    applyExchange (ExchFetch.ok 500 none) dX3 = dX3 :=
  ⟨(exchange_rate_fallback dX3).1, (exchange_rate_fallback dX3).2.1 500 none (by decide)⟩

/-- C6: the derived `default_probability` lies strictly between 0 and 1 for
every (finite) credit score, reading the float arithmetic of line 119 as
real arithmetic. -/
theorem default_probability_in_open_unit (credit_score : ℝ) :
    0 < default_probability credit_score ∧ default_probability credit_score < 1 := by
  have he := Real.exp_pos (-(credit_score - 700) / 50)
  unfold default_probability
  constructor
  · positivity
  · rw [div_lt_one (by linarith)]
    linarith

/-- C7: a failed read of the primary file is caught and behaves exactly as
if an empty frame had been read, whatever the two optional endpoints then
return; `extract_data` is total, so the stage never raises. -/
theorem extract_data_read_failure_as_empty (loanApi : Option LoanFetch)
    (exchApi : Option ExchFetch) :
    extract_data none loanApi exchApi = extract_data (some emptyDataset) loanApi exchApi := rfl

/-- C8: `to_sql(if_exists='replace')` makes loading a full replacement:
loading the same frame twice leaves the same store, in particular the same
`loans` row count, as loading it once. -/
theorem load_data_to_sqlite_idempotent (df : Dataset) (s : Store) :
    load_data_to_sqlite df (load_data_to_sqlite df s) = load_data_to_sqlite df s ∧
    (load_data_to_sqlite df (load_data_to_sqlite df s)).rowCount =
      (load_data_to_sqlite df s).rowCount :=
  ⟨rfl, rfl⟩

/-! ### getCell and encodeLoanStatus lemmas -/

lemma getCell_mem_getCol (d : Dataset) {i : Nat} (c : String) (hi : i < d.rows.length) :
    d.getCell i c ∈ d.getCol c := by
  have hlen : (d.getCol c).length = d.rows.length := List.length_map d.rows _
  unfold Dataset.getCell
  rw [List.getD_eq_getElem?_getD, List.getElem?_eq_getElem (by omega)]
  exact List.getElem_mem _

lemma mem_cols_of_getCell_str (d : Dataset) {i : Nat} {c : String} {s : String}
    (hwf : d.wf) (hi : i < d.rows.length) (hs : d.getCell i c = Val.str s) : c ∈ d.cols := by
  by_contra hc
  have hidx : d.colIdx c = d.cols.length := List.indexOf_eq_length.mpr hc
  have hnull : d.getCell i c = Val.null := by
    unfold Dataset.getCell Dataset.getCol
    rw [getD_map_lt d.rows _ hi Val.null]
    have hlen : (d.rows.get ⟨i, hi⟩).length = d.cols.length :=
      hwf _ (List.get_mem d.rows i hi)
    rw [List.getD_eq_getElem?_getD, List.getElem?_eq_none (by omega)]
    rfl
  rw [hnull] at hs
  exact Val.noConfusion hs

lemma colIsObject_of_getCell_str (d : Dataset) {i : Nat} {c : String} {s : String}
    (hi : i < d.rows.length) (hs : d.getCell i c = Val.str s) :
    d.colIsObject c = true := by
  unfold Dataset.colIsObject
  apply List.any_eq_true.mpr
  exact ⟨d.getCell i c, getCell_mem_getCol d c hi, by rw [hs]; rfl⟩

lemma encodeLoanStatus_of_not_object (d : Dataset)
    (h : d.colIsObject "loan_status" = false) : encodeLoanStatus d = d := by
  unfold encodeLoanStatus
  rw [if_neg]
  rintro ⟨h1, h2⟩
  rw [h] at h2
  exact Bool.noConfusion h2

lemma getCell_encodeLoanStatus_str (d : Dataset) {i : Nat} {s : String} (hwf : d.wf)
    (hi : i < d.rows.length) (hs : d.getCell i "loan_status" = Val.str s) :
    (encodeLoanStatus d).getCell i "loan_status" = loanStatusMapVal (Val.str s) := by
  have hc : "loan_status" ∈ d.cols := mem_cols_of_getCell_str d hwf hi hs
  have hobj : d.colIsObject "loan_status" = true := colIsObject_of_getCell_str d hi hs
  unfold encodeLoanStatus
  rw [if_pos ⟨hc, hobj⟩]
  unfold Dataset.getCell
  rw [getCol_mapCol_self d _ hwf hc]
  have hlen : i < (d.getCol "loan_status").length := by
    unfold Dataset.getCol
    rw [List.length_map]
    exact hi
  rw [getD_map_lt _ _ hlen Val.null]
  have hget : (d.getCol "loan_status").get ⟨i, hlen⟩ = Val.str s := by
    have h2 := hs
    unfold Dataset.getCell at h2
    rw [List.getD_eq_getElem?_getD, List.getElem?_eq_getElem hlen] at h2
    simpa using h2
  rw [hget]

lemma isStr_loanStatusMapVal (v : Val) : (loanStatusMapVal v).isStr = false := by
  match v with
  | Val.num q => rfl
  | Val.null => rfl
  | Val.str s =>
    simp only [loanStatusMapVal]
    by_cases hA : s = "Approved"
    · rw [if_pos hA]; rfl
    · rw [if_neg hA]
      by_cases hD : s = "Denied"
      · rw [if_pos hD]; rfl
      · rw [if_neg hD]; rfl

lemma colIsObject_of_not_mem (d : Dataset) {c : String} (hwf : d.wf) (hc : c ∉ d.cols) :
    d.colIsObject c = false := by
  unfold Dataset.colIsObject
  apply List.any_eq_false.mpr
  intro v hv
  unfold Dataset.getCol at hv
  rcases List.mem_map.mp hv with ⟨r, hr, hrv⟩
  have hidx : d.colIdx c = d.cols.length := List.indexOf_eq_length.mpr hc
  have hlen : r.length = d.cols.length := hwf r hr
  rw [List.getD_eq_getElem?_getD, List.getElem?_eq_none (by omega)] at hrv
  rw [← hrv]
  intro hx
  exact Bool.noConfusion hx

lemma colIsObject_encodeLoanStatus (d : Dataset) (hwf : d.wf) :
    (encodeLoanStatus d).colIsObject "loan_status" = false := by
  by_cases h : "loan_status" ∈ d.cols ∧ d.colIsObject "loan_status" = true
  · have henc : encodeLoanStatus d = d.mapCol "loan_status" loanStatusMapVal := by
      unfold encodeLoanStatus
      rw [if_pos h]
    rw [henc]
    unfold Dataset.colIsObject
    rw [getCol_mapCol_self d _ hwf h.1, List.any_map]
    apply List.any_eq_false.mpr
    intro v _
    simp only [Function.comp]
    rw [isStr_loanStatusMapVal]
    exact Bool.noConfusion
  · have henc : encodeLoanStatus d = d := by
      unfold encodeLoanStatus
      rw [if_neg h]
    rw [henc]
    by_cases hobj : d.colIsObject "loan_status" = true
    · by_cases hc : "loan_status" ∈ d.cols
      · exact absurd ⟨hc, hobj⟩ h
      · exact colIsObject_of_not_mem d hwf hc
    · exact Bool.eq_false_iff.mpr hobj

/-- C4: the outcome-field encoding is the pure dict mapping Approved to 1
and Denied to 0, applied cell-wise; and re-encoding is a no-op: when the
`loan_status` column is already numeric (not object-typed) the encoding
step leaves the frame unchanged, and applying the step twice equals
applying it once. -/
theorem loan_status_encoding_pure_idempotent (d : Dataset) (hwf : d.wf) (i : Nat)
    (hi : i < d.rows.length) :
    (d.getCell i "loan_status" = Val.str "Approved" →
      (encodeLoanStatus d).getCell i "loan_status" = Val.num 1) ∧
    (d.getCell i "loan_status" = Val.str "Denied" →
      (encodeLoanStatus d).getCell i "loan_status" = Val.num 0) ∧
    (d.colIsObject "loan_status" = false → encodeLoanStatus d = d) ∧
    encodeLoanStatus (encodeLoanStatus d) = encodeLoanStatus d := by
  refine ⟨fun h => ?_, fun h => ?_, fun h => encodeLoanStatus_of_not_object d h, ?_⟩
  · rw [getCell_encodeLoanStatus_str d hwf hi h]
    rfl
  · rw [getCell_encodeLoanStatus_str d hwf hi h]
    rfl
  · exact encodeLoanStatus_of_not_object (encodeLoanStatus d)
      (colIsObject_encodeLoanStatus d hwf)

/-- Witness for C4 at a two-row frame holding Approved and Denied. -/
def dW4 : Dataset := ⟨["loan_status"], [[Val.str "Approved"], [Val.str "Denied"]]⟩

/-- Witness for C4: encoding `dW4` maps row 0 to 1 and row 1 to 0, and the
step is idempotent there. -/
theorem loan_status_encoding_pure_idempotent_witness :
    (encodeLoanStatus dW4).getCell 0 "loan_status" = Val.num 1 ∧
    (encodeLoanStatus dW4).getCell 1 "loan_status" = Val.num 0 ∧
    encodeLoanStatus (encodeLoanStatus dW4) = encodeLoanStatus dW4 :=
  ⟨(loan_status_encoding_pure_idempotent dW4 (by decide) 0 (by decide)).1 (by decide),
   (loan_status_encoding_pure_idempotent dW4 (by decide) 1 (by decide)).2.1 (by decide),
   (loan_status_encoding_pure_idempotent dW4 (by decide) 0 (by decide)).2.2.2⟩

/-- C9: a textual `loan_status` value that is neither Approved nor Denied is
not a key of the mapping dict, so the encoding replaces it with null rather
than preserving it or raising. -/
theorem loan_status_unlisted_to_null (d : Dataset) (hwf : d.wf) (i : Nat)
    (hi : i < d.rows.length) (s : String) (hs : d.getCell i "loan_status" = Val.str s)
    (hA : s ≠ "Approved") (hD : s ≠ "Denied") :
    (encodeLoanStatus d).getCell i "loan_status" = Val.null := by
  rw [getCell_encodeLoanStatus_str d hwf hi hs]
  simp only [loanStatusMapVal]
  rw [if_neg hA, if_neg hD]

/-- Witness frame for C9 with an unlisted textual status. -/
def dW9 : Dataset := ⟨["loan_status"], [[Val.str "Pending"]]⟩

/-- Witness for C9: the unlisted value Pending encodes to null. -/
theorem loan_status_unlisted_to_null_witness :
    (encodeLoanStatus dW9).getCell 0 "loan_status" = Val.null :=
  loan_status_unlisted_to_null dW9 (by decide) 0 (by decide) "Pending" (by decide)
    (by decide) (by decide)

/-- Input frame for the C5 counterexample: duplicate rows shift the
median. -/
def dX5 : Dataset :=
  ⟨["a"], [[Val.num 1], [Val.num 1], [Val.num 1], [Val.num 2], [Val.num 9], [Val.null]]⟩

/-- C5 counterexample: the median of the column's non-missing input values
is 1, but `drop_duplicates` runs before imputation, so the missing value is
filled with 2, the median of the deduplicated column — the claim's
input-median fill fails at this input. -/
theorem validate_data_input_median_cex :
    median (nonNulls (dX5.getCol "a")) = some 1 ∧
    (validate_data dX5).getCol "a" = [Val.num 1, Val.num 2, Val.num 9, Val.num 2] ∧
    (validate_data dX5).getCol "a" ≠
      (dX5.getCol "a").map (fun v => if v = Val.null then Val.num 1 else v) := by decide

/-- C5 amended: duplicate rows are removed before imputation, so the fill
value is the median of the deduplicated column; on a duplicate-free input
every missing value of a numeric column is replaced by the median of that
column's non-missing input values, and no nulls remain in the column unless
it was entirely null in the input (median undefined). -/
theorem validate_data_imputes_column_median (d : Dataset) (hwf : d.wf)
    (hcols : d.cols.Nodup) (hrows : d.rows.Nodup) (c : String) (hc : c ∈ d.cols)
    (hnum : d.colIsNumeric c = true) :
    (∀ m : ℚ, median (nonNulls (d.getCol c)) = some m →
      (validate_data d).getCol c =
        (d.getCol c).map (fun v => if v = Val.null then Val.num m else v) ∧
      Val.null ∉ (validate_data d).getCol c) ∧
    (median (nonNulls (d.getCol c)) = none →
      (validate_data d).getCol c = d.getCol c) := by
  have hdd := dropDuplicates_eq_self d hrows
  have hcnum : c ∈ d.cols.filter (fun x => d.colIsNumeric x) :=
    List.mem_filter.mpr ⟨hc, hnum⟩
  have happ : c ∈ d.cols.filter (fun x => d.colIsNumeric x) ++
      d.cols.filter (fun x => d.colIsObject x) := List.mem_append_left _ hcnum
  have hsub : ∀ x ∈ d.cols.filter (fun x => d.colIsNumeric x), x ∈ d.cols :=
    fun x hx => List.mem_of_mem_filter hx
  have hndf : (d.cols.filter (fun x => d.colIsNumeric x)).Nodup :=
    List.Nodup.filter _ hcols
  constructor
  · intro m hm
    have heq : (validate_data d).getCol c =
        (d.getCol c).map (fun v => if v = Val.null then Val.num m else v) := by
      rw [validate_data_eq]
      simp only [hdd]
      rw [getCol_selectCols _ happ,
        getCol_foldl_imputeCol_mem d _ d hwf hsub hndf hcnum, hm]
      rfl
    refine ⟨heq, ?_⟩
    rw [heq]
    intro hmem
    rcases List.mem_map.mp hmem with ⟨v, hv, hveq⟩
    by_cases hvn : v = Val.null
    · rw [if_pos hvn] at hveq
      exact Val.noConfusion hveq
    · rw [if_neg hvn] at hveq
      exact hvn hveq
  · intro hm
    rw [validate_data_eq]
    simp only [hdd]
    rw [getCol_selectCols _ happ,
      getCol_foldl_imputeCol_mem d _ d hwf hsub hndf hcnum, hm]
    rfl

/-- Duplicate-free witness frame for C5 with one missing value and median
4. -/
def dW5 : Dataset := ⟨["a"], [[Val.num 2], [Val.null], [Val.num 4], [Val.num 6]]⟩

/-- Witness for C5 (amended) at `dW5`. -/
theorem validate_data_imputes_column_median_witness :
    median (nonNulls (dW5.getCol "a")) = some 4 ∧
    (validate_data dW5).getCol "a" =
      (dW5.getCol "a").map (fun v => if v = Val.null then Val.num 4 else v) ∧
    Val.null ∉ (validate_data dW5).getCol "a" := by
  have h := (validate_data_imputes_column_median dW5 (by decide) (by decide) (by decide)
    "a" (by decide) (by decide)).1 4 (by decide)
  exact ⟨by decide, h.1, h.2⟩

/-- Input frame for the C10 counterexample: imputation rewrites a missing
value. -/
def dX10 : Dataset := ⟨["a"], [[Val.null], [Val.num 1]]⟩

/-- C10 counterexample: `validate_data` does not preserve the values of
every surviving column on every input — the null in the numeric column is
replaced by the median. -/
theorem validate_data_value_preservation_cex :
    (validate_data dX10).getCol "a" ≠ dX10.getCol "a" := by decide

/-- C10 amended: apart from duplicate-row removal and numeric-null
imputation, `validate_data` only reorders columns: on a duplicate-free
input with no missing values in numeric columns it preserves every column's
values and row order, and its output column list is exactly the numeric
columns followed by the categorical columns, each group in input order. -/
theorem validate_data_reorders_columns (d : Dataset) (hwf : d.wf)
    (hcols : d.cols.Nodup) (hrows : d.rows.Nodup)
    (hnn : ∀ c ∈ d.cols, d.colIsNumeric c = true → Val.null ∉ d.getCol c) :
    (validate_data d).cols =
      d.cols.filter (fun c => d.colIsNumeric c) ++
        d.cols.filter (fun c => d.colIsObject c) ∧
    ∀ c ∈ d.cols, (validate_data d).getCol c = d.getCol c := by
  have hdd := dropDuplicates_eq_self d hrows
  constructor
  · rw [validate_data_eq]
    simp only [hdd]
    rw [cols_selectCols]
  · intro c hc
    rw [validate_data_eq]
    simp only [hdd]
    by_cases hnum : d.colIsNumeric c = true
    · have hcnum : c ∈ d.cols.filter (fun x => d.colIsNumeric x) :=
        List.mem_filter.mpr ⟨hc, hnum⟩
      rw [getCol_selectCols _ (List.mem_append_left _ hcnum),
        getCol_foldl_imputeCol_mem d _ d hwf (fun x hx => List.mem_of_mem_filter hx)
          (List.Nodup.filter _ hcols) hcnum]
      cases hm : median (nonNulls (d.getCol c)) with
      | none => rfl
      | some m =>
        simp only [fillFn]
        conv_rhs => rw [← List.map_id (d.getCol c)]
        apply List.map_congr_left
        intro v hv
        have hvn : v ≠ Val.null := fun h => (hnn c hc hnum) (h ▸ hv)
        rw [if_neg hvn]
        rfl
    · have hobj : d.colIsObject c = true := by
        unfold Dataset.colIsNumeric at hnum
        cases hob : d.colIsObject c
        · rw [hob] at hnum
          exact absurd rfl hnum
        · rfl
      have hccat : c ∈ d.cols.filter (fun x => d.colIsObject x) :=
        List.mem_filter.mpr ⟨hc, hobj⟩
      have hcnotnum : c ∉ d.cols.filter (fun x => d.colIsNumeric x) := by
        intro hmem
        exact hnum (List.mem_filter.mp hmem).2
      rw [getCol_selectCols _ (List.mem_append_right _ hccat),
        getCol_foldl_imputeCol_not_mem d _ d hwf (fun x hx => List.mem_of_mem_filter hx)
          hcnotnum]

/-- Witness frame for C10: an object column listed before a numeric one,
with no duplicates and no missing numeric values. -/
def dW10 : Dataset :=
  ⟨["s", "a"], [[Val.str "x", Val.num 1], [Val.str "y", Val.num 2]]⟩

/-- Witness for C10 (amended) at `dW10`, where the numeric column `a` moves
in front of the object column `s` while both keep their values. -/
theorem validate_data_reorders_columns_witness :
    (validate_data dW10).cols =
      dW10.cols.filter (fun c => dW10.colIsNumeric c) ++
        dW10.cols.filter (fun c => dW10.colIsObject c) ∧
    (validate_data dW10).getCol "a" = dW10.getCol "a" ∧
    (validate_data dW10).getCol "s" = dW10.getCol "s" := by
  have h := validate_data_reorders_columns dW10 (by decide) (by decide) (by decide)
    (by decide)
  exact ⟨h.1, h.2 "a" (by decide), h.2 "s" (by decide)⟩
